import Mathlib

/-!
Verification of the manners listener layer (listener.go).

The Go source wraps a `net.Listener` in a `GracefulListener` carrying an
atomic `open` flag (int32, initially 1).  `Accept` delegates to the inner
listener; on failure it atomically loads the flag and, when the flag is 0,
wraps the error in the `listenerAlreadyClosed` marker.  `Close` performs a
compare-and-swap 1 → 0 and only the winner closes the inner listener.
`gracefulConn` wraps a `net.Conn` with a `lastHTTPState` tag (initially 0),
and `tcpKeepAliveListener` enables keep-alive with a 3-minute period on
every accepted TCP connection.

Shallow embedding conventions: the behavior of the inner listener at each
call (the result of its `Accept` or `Close`) is supplied as an explicit
argument, since it is external input to this layer.  Underlying Go `error`
values are opaque and modelled as `Nat` codes; the marker wrapping is the
`AcceptError` inductive.  Concurrent histories are modelled as linearized
sequences of operations (`List Op`), which is faithful because the only
shared mutable state is the single atomic flag and each operation touches
it with one atomic instruction (load or compare-and-swap).
-/

/-- Opaque handle for an underlying `net.Listener`. -/
abbrev net.Listener := Nat

/-- Model of a raw `net.Conn`: bytes still readable, bytes written so far,
and whether it has been closed. -/
structure net.Conn where
  readBuf : List Nat
  written : List Nat
  closed : Bool
deriving DecidableEq

/-- Raw connection read: consumes up to `n` bytes from the read buffer. -/
def net.Conn.Read (c : net.Conn) (n : Nat) : List Nat × net.Conn :=
  (c.readBuf.take n, { c with readBuf := c.readBuf.drop n })

/-- Raw connection write: appends the bytes to the written log. -/
def net.Conn.Write (c : net.Conn) (bs : List Nat) : net.Conn :=
  { c with written := c.written ++ bs }

/-- Raw connection close. -/
def net.Conn.Close (c : net.Conn) : net.Conn :=
  { c with closed := true }

/-- Model of `http.ConnState` (an integer enumeration; `StateNew = 0`). -/
abbrev http.ConnState := Int

/-- A gracefulConn wraps a normal net.Conn and tracks the last known http
state (listener.go lines 22-25).  Go struct embedding promotes the inner
connection methods unchanged. -/
structure gracefulConn where
  Conn : net.Conn
  lastHTTPState : http.ConnState
deriving DecidableEq

/-- Promoted read on the wrapper: delegates to the embedded `net.Conn`. -/
def gracefulConn.Read (g : gracefulConn) (n : Nat) : List Nat × gracefulConn :=
  let r := g.Conn.Read n
  (r.1, { g with Conn := r.2 })

/-- Promoted write on the wrapper: delegates to the embedded `net.Conn`. -/
def gracefulConn.Write (g : gracefulConn) (bs : List Nat) : gracefulConn :=
  { g with Conn := g.Conn.Write bs }

/-- Promoted close on the wrapper: delegates to the embedded `net.Conn`. -/
def gracefulConn.Close (g : gracefulConn) : gracefulConn :=
  { g with Conn := g.Conn.Close }

/-- A GracefulListener wraps a net.Listener and adds the atomic `open`
flag (listener.go lines 31-34).  The int32 flag only ever holds the
constants 0 and 1, so `Int` models it exactly. -/
structure GracefulListener where
  Listener : net.Listener
  «open» : Int
deriving DecidableEq

/-- NewListener wraps an existing listener (listener.go lines 16-18):
`&GracefulListener{l, 1}` — a pure constructor, no call on `l`. -/
def NewListener (l : net.Listener) : GracefulListener :=
  ⟨l, 1⟩

/-- Errors returned by `GracefulListener.Accept`: either the underlying
error passed through unchanged, or the `listenerAlreadyClosed` marker
(listener.go lines 59-61) wrapping the underlying error. -/
inductive AcceptError where
  | underlying (e : Nat)
  | listenerAlreadyClosed (e : Nat)
deriving DecidableEq

/-- Accept (listener.go lines 37-48).  `innerResult` is what the inner
listener's `Accept` returned at this call.  On failure the flag is loaded
atomically: value 0 selects the marker wrapping, otherwise the error is
returned unchanged.  On success the raw connection is wrapped as
`&gracefulConn{conn, 0}`.  The listener state is returned unchanged
because the Go method never stores to `open` or to the inner field. -/
def GracefulListener.Accept (l : GracefulListener) (innerResult : Except Nat net.Conn) :
    Except AcceptError gracefulConn × GracefulListener :=
  match innerResult with
  | .error e =>
      if l.«open» = 0 then (.error (AcceptError.listenerAlreadyClosed e), l)
      else (.error (AcceptError.underlying e), l)
  | .ok conn => (.ok ⟨conn, 0⟩, l)

/-- Close (listener.go lines 51-57).  `innerCloseResult` is what the inner
listener's `Close` would return if invoked.  Returns the caller-visible
result, the updated state, and whether the inner close was invoked.  The
compare-and-swap 1 → 0 succeeds only when the flag is exactly 1. -/
def GracefulListener.Close (l : GracefulListener) (innerCloseResult : Option Nat) :
    Option Nat × GracefulListener × Bool :=
  if l.«open» = 1 then (innerCloseResult, { l with «open» := 0 }, true)
  else (none, l, false)

/-- One linearized operation on a `GracefulListener`, carrying the inner
listener's behavior at that call. -/
inductive Op where
  | accept (innerResult : Except Nat net.Conn)
  | close (innerCloseResult : Option Nat)

/-- State after one operation. -/
def stepState (l : GracefulListener) : Op → GracefulListener
  | Op.accept r => (l.Accept r).2
  | Op.close e => (l.Close e).2.1

/-- Run a linearized sequence of operations.  Returns the final state, the
number of times the inner listener's close was invoked, and the list of
results observed by the `Close` callers in order. -/
def runOps (l : GracefulListener) : List Op → GracefulListener × Nat × List (Option Nat)
  | [] => (l, 0, [])
  | Op.accept r :: rest => runOps (l.Accept r).2 rest
  | Op.close e :: rest =>
      let s := l.Close e
      let next := runOps s.2.1 rest
      (next.1, (if s.2.2 then 1 else 0) + next.2.1, s.1 :: next.2.2)

/-- Inner close results carried by the close operations of a sequence. -/
def closeArgs : List Op → List (Option Nat)
  | [] => []
  | Op.accept _ :: rest => closeArgs rest
  | Op.close e :: rest => e :: closeArgs rest

/-- Whether a sequence contains a close operation. -/
def hasClose : List Op → Bool
  | [] => false
  | Op.accept _ :: rest => hasClose rest
  | Op.close _ :: _rest => true

/-- Number of inner close invocations the close contract demands: one when
any close was called, zero otherwise. -/
def expectedCloseCount : List (Option Nat) → Nat
  | [] => 0
  | _ :: _ => 1

/-- Close results the contract demands: the first close caller observes
the inner close result, every later caller observes success (`none`). -/
def expectedCloseResults : List (Option Nat) → List (Option Nat)
  | [] => []
  | e :: rest => e :: rest.map (fun _ => none)

theorem accept_snd (l : GracefulListener) (r : Except Nat net.Conn) :
    (l.Accept r).2 = l := by
  cases r with
  | error e =>
      simp only [GracefulListener.Accept]
      split <;> rfl
  | ok c => rfl

theorem runOps_closed (ops : List Op) (l : GracefulListener) (h : l.«open» = 0) :
    runOps l ops = (l, 0, (closeArgs ops).map (fun _ => none)) := by
  induction ops with
  | nil => rfl
  | cons op rest ih =>
      cases op with
      | accept r =>
          simp only [runOps, accept_snd, closeArgs]
          exact ih
      | close e =>
          have hne : ¬ l.«open» = 1 := by rw [h]; decide
          simp [runOps, GracefulListener.Close, hne, ih, closeArgs]

theorem runOps_open (ops : List Op) (l : GracefulListener) (h : l.«open» = 1) :
    runOps l ops =
      ((if hasClose ops then { l with «open» := 0 } else l),
       expectedCloseCount (closeArgs ops),
       expectedCloseResults (closeArgs ops)) := by
  induction ops with
  | nil => rfl
  | cons op rest ih =>
      cases op with
      | accept r =>
          simp only [runOps, accept_snd, closeArgs, hasClose]
          exact ih
      | close e =>
          simp only [runOps, GracefulListener.Close, h, if_true, if_pos,
            runOps_closed rest { l with «open» := 0 } rfl, closeArgs, hasClose,
            expectedCloseCount, expectedCloseResults]

/-- C1: over any linearized history of Accept and Close calls starting
from a freshly constructed listener, the inner listener's close is invoked
exactly once when at least one Close was called (zero times otherwise);
the first Close caller — the winner of the compare-and-swap — observes the
inner close's own result, and every other Close caller observes success
(`none`), having performed no underlying close. -/
theorem close_idempotent (l : net.Listener) (ops : List Op) :
    (runOps (NewListener l) ops).2.1 = expectedCloseCount (closeArgs ops) ∧
    (runOps (NewListener l) ops).2.2 = expectedCloseResults (closeArgs ops) := by
  rw [runOps_open ops (NewListener l) rfl]
  exact ⟨rfl, rfl⟩

/-- C2: when the inner accept fails with error `e`, Accept returns the
marker `listenerAlreadyClosed e` exactly when the flag read at failure
time is 0, and the unchanged error `underlying e` otherwise; in both
cases no connection is returned. -/
theorem accept_failure_classification (l : GracefulListener) (e : Nat) :
    (l.«open» = 0 →
      l.Accept (.error e) = (.error (AcceptError.listenerAlreadyClosed e), l)) ∧
    (l.«open» ≠ 0 →
      l.Accept (.error e) = (.error (AcceptError.underlying e), l)) ∧
    (∀ g : gracefulConn, (l.Accept (.error e)).1 ≠ .ok g) := by
  refine ⟨fun h => ?_, fun h => ?_, fun g => ?_⟩
  · simp [GracefulListener.Accept, h]
  · simp [GracefulListener.Accept, h]
  · simp only [GracefulListener.Accept]
    split <;> simp

/-- Witness for C2 at the closed state `⟨0, 0⟩` and the open state
`⟨0, 1⟩` with underlying error 3. -/
theorem accept_failure_classification_w :
    GracefulListener.Accept ⟨0, 0⟩ (.error 3)
        = (.error (AcceptError.listenerAlreadyClosed 3), ⟨0, 0⟩) ∧
    GracefulListener.Accept ⟨0, 1⟩ (.error 3)
        = (.error (AcceptError.underlying 3), ⟨0, 1⟩) :=
  ⟨(accept_failure_classification ⟨0, 0⟩ 3).1 rfl,
   (accept_failure_classification ⟨0, 1⟩ 3).2.1 (by decide)⟩

/-- C3: the flag starts at 1 (open); after any history it is 0 or 1; and
once 0 it stays 0 under every operation — so it transitions at most once,
open to closed, never back. -/
theorem flag_transitions_once (l : net.Listener) (ops : List Op)
    (s : GracefulListener) (op : Op) :
    (NewListener l).«open» = 1 ∧
    ((runOps (NewListener l) ops).1.«open» = 1 ∨
      (runOps (NewListener l) ops).1.«open» = 0) ∧
    (stepState { s with «open» := 0 } op).«open» = 0 := by
  refine ⟨rfl, ?_, ?_⟩
  · rw [runOps_open ops (NewListener l) rfl]
    by_cases h : hasClose ops
    · right; simp [h]
    · left; simp [h, NewListener]
  · cases op with
    | accept r => simp [stepState, accept_snd]
    | close e => simp [stepState, GracefulListener.Close]

/-- C4: after any history containing a Close (so after any Close call has
returned), an Accept whose inner accept fails with `e` returns the
shutdown marker wrapping `e`. -/
theorem accept_after_close_classified (l : net.Listener) (ops : List Op) (e : Nat)
    (h : hasClose ops = true) :
    ((runOps (NewListener l) ops).1.Accept (.error e)).1
      = .error (AcceptError.listenerAlreadyClosed e) := by
  rw [runOps_open ops (NewListener l) rfl]
  simp [h, GracefulListener.Accept]

/-- Witness for C4: one Close, then a failing Accept with error 7. -/
theorem accept_after_close_classified_w :
    ((runOps (NewListener 0) [Op.close none]).1.Accept (.error 7)).1
      = .error (AcceptError.listenerAlreadyClosed 7) :=
  accept_after_close_classified 0 [Op.close none] 7 rfl

/-- C5: while the listener has never been closed (a history without any
Close), a failing Accept returns the underlying error unchanged and never
the shutdown marker; and at any single call, the marker is produced only
when the flag was observed as 0 — a nonzero flag always yields the
unchanged underlying error. -/
theorem accept_while_open_passthrough (l : net.Listener) (ops : List Op) (e : Nat)
    (s : GracefulListener) (h : hasClose ops = false) (h2 : s.«open» ≠ 0) :
    ((runOps (NewListener l) ops).1.Accept (.error e)).1
        = .error (AcceptError.underlying e) ∧
    (s.Accept (.error e)).1 = .error (AcceptError.underlying e) := by
  constructor
  · rw [runOps_open ops (NewListener l) rfl]
    simp [h, NewListener, GracefulListener.Accept]
  · simp [GracefulListener.Accept, h2]

/-- Witness for C5: a close-free history of one successful Accept, then a
failing Accept with error 5; and a single call at the open state. -/
theorem accept_while_open_passthrough_w :
    ((runOps (NewListener 0) [Op.accept (.ok ⟨[], [], false⟩)]).1.Accept (.error 5)).1
        = .error (AcceptError.underlying 5) ∧
    (GracefulListener.Accept ⟨0, 1⟩ (.error 5)).1
        = .error (AcceptError.underlying 5) :=
  accept_while_open_passthrough 0 [Op.accept (.ok ⟨[], [], false⟩)] 5 ⟨0, 1⟩ rfl (by decide)

/-- C6: a successful Accept wraps the raw connection with the protocol
state tag initialized to 0 (the new/unset default), and the wrapper's
read, write and close delegate to the raw connection unchanged: same
bytes returned, the inner connection evolves exactly as the raw one, and
the tag is untouched by those operations. -/
theorem accept_success_wraps (l : GracefulListener) (c : net.Conn)
    (g : gracefulConn) (n : Nat) (bs : List Nat) :
    (l.Accept (.ok c)).1 = .ok ⟨c, 0⟩ ∧
    (g.Read n).1 = (g.Conn.Read n).1 ∧
    (g.Read n).2.Conn = (g.Conn.Read n).2 ∧
    (g.Read n).2.lastHTTPState = g.lastHTTPState ∧
    (g.Write bs).Conn = g.Conn.Write bs ∧
    (g.Write bs).lastHTTPState = g.lastHTTPState ∧
    g.Close.Conn = g.Conn.Close ∧
    g.Close.lastHTTPState = g.lastHTTPState :=
  ⟨rfl, rfl, rfl, rfl, rfl, rfl, rfl, rfl⟩

/-- Model of a raw `*net.TCPConn` and the socket options this layer may
touch; `id` stands for the connection identity and data, `noDelay` and
`linger` for the other socket options. -/
structure net.TCPConn where
  id : Nat
  keepAlive : Bool
  keepAlivePeriod : Int
  noDelay : Bool
  linger : Int
deriving DecidableEq

/-- SetKeepAlive socket option setter. -/
def net.TCPConn.SetKeepAlive (tc : net.TCPConn) (b : Bool) : net.TCPConn :=
  { tc with keepAlive := b }

/-- SetKeepAlivePeriod socket option setter (duration in nanoseconds, as
Go `time.Duration`). -/
def net.TCPConn.SetKeepAlivePeriod (tc : net.TCPConn) (d : Int) : net.TCPConn :=
  { tc with keepAlivePeriod := d }

/-- Go `time.Minute` in nanoseconds. -/
def time.Minute : Int := 60 * 1000000000

/-- tcpKeepAliveListener (listener.go lines 69-71) wraps a
`*net.TCPListener`, modelled as an opaque handle. -/
structure tcpKeepAliveListener where
  TCPListener : Nat
deriving DecidableEq

/-- Accept on tcpKeepAliveListener (listener.go lines 73-81).
`innerResult` is what `AcceptTCP` returned at this call: on failure the
error is returned as is; on success keep-alive is enabled and the period
set to `3 * time.Minute` before the connection is returned. -/
def tcpKeepAliveListener.Accept (_ln : tcpKeepAliveListener)
    (innerResult : Except Nat net.TCPConn) : Except Nat net.TCPConn :=
  match innerResult with
  | .error e => .error e
  | .ok tc => .ok ((tc.SetKeepAlive true).SetKeepAlivePeriod (3 * time.Minute))

/-- C7: a successful keep-alive Accept returns the same connection with
keep-alive enabled and the period set to 3 minutes (180 seconds, here in
nanoseconds) and every other field — identity and the other socket
options — unchanged; a failing Accept propagates the error unchanged. -/
theorem keepalive_accept_spec (ln : tcpKeepAliveListener) (tc : net.TCPConn) (e : Nat) :
    ln.Accept (.ok tc)
        = .ok { tc with keepAlive := true, keepAlivePeriod := 3 * time.Minute } ∧
    3 * time.Minute = 180 * 1000000000 ∧
    ln.Accept (.error e) = .error e :=
  ⟨rfl, rfl, rfl⟩

/-- C8: NewListener returns a wrapper whose flag is 1 (open) and whose
inner listener is the given one; running the empty history from it shows
no inner close was invoked and no result produced — the constructor is
pure and performs no operation on the wrapped listener. -/
theorem newListener_spec (l : net.Listener) :
    (NewListener l).Listener = l ∧
    (NewListener l).«open» = 1 ∧
    runOps (NewListener l) [] = (NewListener l, 0, []) :=
  ⟨rfl, rfl, rfl⟩

/-- C9: when the inner accept succeeds, Accept returns the wrapped
connection with no error and leaves the state untouched, whatever the
flag value — including flag 0, a successful accept after Close. -/
theorem accept_success_ignores_flag (inner : net.Listener) (flag : Int) (c : net.Conn) :
    GracefulListener.Accept ⟨inner, flag⟩ (.ok c) = (.ok ⟨c, 0⟩, ⟨inner, flag⟩) :=
  rfl

/-- C10: Accept never mutates the listener: for every inner result,
success or failure, the state after the call equals the state before. -/
theorem accept_frame (l : GracefulListener) (r : Except Nat net.Conn) :
    (l.Accept r).2 = l :=
  accept_snd l r
